import Mathlib

/-!
Verification of the eTuitionBD server (src/index.js): a shallow embedding of
the listing/application/payment lifecycle endpoints.  Each MongoDB collection
is modelled as an association list keyed by the document id string; the
Mongo operations `findOne`, `updateOne`/`updateMany` (with `$set`),
`deleteOne`/`deleteMany` and `insertOne` become list lookups, pointwise
rewrites, filters and prepends.  Document ids are unique in the store, so
rewriting every entry matching an id filter agrees with `updateOne`.
`Date` values are modelled as a `Nat` tick supplied to each request.
-/

namespace ETuition

/-- One document of `tuitionsCollection` (a tuition listing).  `owner` is
`postedBy.email`; the opaque subject/class/location/schedule/budget payload
is collapsed into the single field `attrs`. -/
structure Listing where
  owner : String
  attrs : Nat
  status : String
  hiredTutor : Option String := none
  createdAt : Nat := 0
  approvedAt : Option Nat := none
  rejectedAt : Option Nat := none
  hiredAt : Option Nat := none
  updatedAt : Option Nat := none
deriving DecidableEq

/-- One document of `applicationsCollection`.  The opaque
qualifications/experience/expectedSalary payload is collapsed into `bid`
(the `tutorName`/`tutorImage` display fields copied from the users
collection are omitted: no endpoint reads them). -/
structure Application where
  tuitionId : String
  tutorEmail : String
  bid : Nat
  status : String
  appliedAt : Nat := 0
  approvedAt : Option Nat := none
  rejectedAt : Option Nat := none
  updatedAt : Option Nat := none
deriving DecidableEq

/-- A JavaScript numeric field that may also be absent or null, as
`session.amount_total` can be on a retrieved gateway session. -/
inductive JsNum where
  | undef
  | null
  | num (q : Rat)
deriving DecidableEq

/-- One document of `ordersCollection` (a payment record). -/
structure Payment where
  applicationId : String
  tuitionId : String
  transactionId : String
  studentEmail : String
  tutorEmail : String
  amount : Rat
  status : String
  paidAt : Nat
deriving DecidableEq

/-- The checkout session retrieved from the gateway by
`stripe.checkout.sessions.retrieve`: the transaction reference
(`payment_intent`), the settlement report, and the metadata attached at
checkout creation. -/
structure Session where
  payment_intent : String
  payment_status : String
  amount_total : JsNum
  applicationId : String
  tuitionId : String
  studentEmail : String
  tutorEmail : String
deriving DecidableEq

/-- The persistent state: the three collections the lifecycle endpoints
touch. -/
structure DB where
  tuitions : List (String × Listing) := []
  applications : List (String × Application) := []
  orders : List Payment := []
deriving DecidableEq

/-- Outcome sent back by an endpoint, keeping only what distinguishes the
consumer-visible cases: `ok` for a 2xx acknowledgement, `okReplay`/`created`
for the two payment-success responses, `conflict` (409), `forbidden` (403),
`cannotUpdate` (the 400 "Cannot update/delete …" lifecycle refusals), and
`serverError` for the 500 produced when a missing document makes the handler
throw. -/
inductive Res where
  | ok
  | okReplay (p : Payment)
  | created (p : Payment)
  | conflict
  | forbidden
  | cannotUpdate
  | serverError
deriving DecidableEq

/-- Association-list lookup: `collection.findOne({ _id: k })`. -/
def findA {α : Type} : List (String × α) → String → Option α
  | [], _ => none
  | (k, v) :: t, k' => if k = k' then some v else findA t k'

/-- Association-list update, standing in for `updateOne`/`updateMany` with a
`$set`: every entry satisfying `p` is rewritten by `f`. -/
def updA {α : Type} (p : String → α → Bool) (f : α → α) :
    List (String × α) → List (String × α)
  | [] => []
  | (k, v) :: t => (if p k v then (k, f v) else (k, v)) :: updA p f t

/-- Association-list deletion, standing in for `deleteOne`/`deleteMany`. -/
def delA {α : Type} (p : String → α → Bool) (m : List (String × α)) :
    List (String × α) :=
  m.filter fun kv => !(p kv.1 kv.2)

/-- The `$set` of the admin approve endpoint (src/index.js:1026). -/
def approveListing (now : Nat) (l : Listing) : Listing :=
  { l with status := "approved", approvedAt := some now }

/-- The `$set` of the admin reject endpoint (src/index.js:1044). -/
def rejectListing (now : Nat) (l : Listing) : Listing :=
  { l with status := "rejected", rejectedAt := some now }

/-- The `$set` of the owner update endpoint (src/index.js:340): the request
body (the opaque listing payload) plus `updatedAt`. -/
def setAttrs (attrs : Nat) (now : Nat) (l : Listing) : Listing :=
  { l with attrs := attrs, updatedAt := some now }

/-- The `$set` hiring a listing (src/index.js:702): `status: "hired"`,
`hiredTutor` from the session metadata, `hiredAt`. -/
def hireListing (tutor : String) (now : Nat) (l : Listing) : Listing :=
  { l with status := "hired", hiredTutor := some tutor, hiredAt := some now }

/-- The `$set` approving the paid-for application (src/index.js:670). -/
def approveApp (now : Nat) (a : Application) : Application :=
  { a with status := "approved", approvedAt := some now }

/-- The `$set` rejecting a losing application (src/index.js:687 and
src/index.js:563). -/
def rejectApp (now : Nat) (a : Application) : Application :=
  { a with status := "rejected", rejectedAt := some now }

/-- The application document inserted by `POST /applications`
(src/index.js:398). -/
def mkApp (tuitionId tutor : String) (bid : Nat) (now : Nat) : Application :=
  { tuitionId := tuitionId, tutorEmail := tutor, bid := bid,
    status := "pending", appliedAt := now }

/-- `POST /tuitions` (src/index.js:176): inserts the listing with
`status: "pending"` and `createdAt` the current time; the owner is the
caller's token email.  The fresh document id is a parameter. -/
def postTuition (db : DB) (owner : String) (attrs : Nat) (id : String)
    (now : Nat) : DB × Res :=
  let l : Listing :=
    { owner := owner, attrs := attrs, status := "pending", createdAt := now }
  ({ db with tuitions := (id, l) :: db.tuitions }, .ok)

/-- `PATCH /admin/tuitions/:id/approve` (src/index.js:1019): a single
unconditional `updateOne` setting `status: "approved"` and `approvedAt`;
there is no check of the listing's current status. -/
def adminApproveTuition (db : DB) (id : String) (now : Nat) : DB × Res :=
  let ts := updA (fun k _ => k == id) (approveListing now) db.tuitions
  ({ db with tuitions := ts }, .ok)

/-- `PATCH /admin/tuitions/:id/reject` (src/index.js:1038): a single
unconditional `updateOne` setting `status: "rejected"` and `rejectedAt`;
there is no check of the listing's current status. -/
def adminRejectTuition (db : DB) (id : String) (now : Nat) : DB × Res :=
  let ts := updA (fun k _ => k == id) (rejectListing now) db.tuitions
  ({ db with tuitions := ts }, .ok)

/-- `PATCH /tuitions/:id` (src/index.js:320): loads the listing (a missing
document makes `tuition.postedBy` throw, caught as a 500), rejects a
non-owner with 403 and an `approved` listing with 400, and otherwise
`$set`s the request body plus `updatedAt`.  The body is the edited opaque
listing payload, modelled by `attrs`. -/
def updateTuition (db : DB) (id : String) (requester : String) (attrs : Nat)
    (now : Nat) : DB × Res :=
  match findA db.tuitions id with
  | none => (db, .serverError)
  | some t =>
    if t.owner ≠ requester then (db, .forbidden)
    else if t.status = "approved" then (db, .cannotUpdate)
    else
      let ts := updA (fun k _ => k == id) (setAttrs attrs now) db.tuitions
      ({ db with tuitions := ts }, .ok)

/-- `DELETE /tuitions/:id` (src/index.js:353): loads the listing (missing →
throw → 500), rejects a non-owner with 403, then `deleteOne`s the listing
and `deleteMany`s every application whose `tuitionId` is this listing's
id. -/
def deleteTuition (db : DB) (id : String) (requester : String) : DB × Res :=
  match findA db.tuitions id with
  | none => (db, .serverError)
  | some t =>
    if t.owner ≠ requester then (db, .forbidden)
    else
      let ts := delA (fun k _ => k == id) db.tuitions
      let as_ := delA (fun _ a => a.tuitionId == id) db.applications
      ({ db with tuitions := ts, applications := as_ }, .ok)

/-- `POST /applications` (src/index.js:380): `findOne` for any existing
application with this `tuitionId` and the caller's `tutorEmail` — of any
status — answering 409 when found; otherwise inserts the application with
`status: "pending"` and `appliedAt`.  The target listing is never loaded:
its status is not checked. -/
def postApplication (db : DB) (tutor : String) (tuitionId : String)
    (bid : Nat) (appId : String) (now : Nat) : DB × Res :=
  match db.applications.find?
      (fun kv => kv.2.tuitionId == tuitionId && kv.2.tutorEmail == tutor) with
  | some _ => (db, .conflict)
  | none =>
    ({ db with applications :=
        (appId, mkApp tuitionId tutor bid now) :: db.applications }, .ok)

/-- `PATCH /applications/:id` (src/index.js:476): loads the application
(missing → throw → 500), rejects a non-applicant with 403 and a non-pending
application with 400, then `$set`s the bid payload and `updatedAt`. -/
def patchApplication (db : DB) (appId : String) (requester : String)
    (bid : Nat) (now : Nat) : DB × Res :=
  match findA db.applications appId with
  | none => (db, .serverError)
  | some a =>
    if a.tutorEmail ≠ requester then (db, .forbidden)
    else if a.status ≠ "pending" then (db, .cannotUpdate)
    else
      let as_ :=
        updA (fun k _ => k == appId)
          (fun b => { b with bid := bid, updatedAt := some now })
          db.applications
      ({ db with applications := as_ }, .ok)

/-- `DELETE /applications/:id` (src/index.js:514): loads the application
(missing → throw → 500), rejects a non-applicant with 403 and a non-pending
application with 400, then `deleteOne`s it. -/
def deleteApplication (db : DB) (appId : String) (requester : String) :
    DB × Res :=
  match findA db.applications appId with
  | none => (db, .serverError)
  | some a =>
    if a.tutorEmail ≠ requester then (db, .forbidden)
    else if a.status ≠ "pending" then (db, .cannotUpdate)
    else
      ({ db with applications := delA (fun k _ => k == appId) db.applications },
        .ok)

/-- `PATCH /applications/:id/reject` (src/index.js:548): loads the
application and its listing (either missing → throw → 500), rejects a
requester other than the listing owner with 403, then sets
`status: "rejected"` and `rejectedAt` with no check of the application's
current status. -/
def rejectApplication (db : DB) (appId : String) (requester : String)
    (now : Nat) : DB × Res :=
  match findA db.applications appId with
  | none => (db, .serverError)
  | some a =>
    match findA db.tuitions a.tuitionId with
    | none => (db, .serverError)
    | some t =>
      if t.owner ≠ requester then (db, .forbidden)
      else
        let as_ := updA (fun k _ => k == appId) (rejectApp now) db.applications
        ({ db with applications := as_ }, .ok)

/-- The amount stored on a payment record (src/index.js:659):
`Number(session.amount_total / 100) || 0`.  A missing `amount_total` gives
`NaN / 100 = NaN`, a null one gives `0 / 100 = 0`, and `|| 0` turns both —
and a zero quotient — into `0`. -/
def jsAmount : JsNum → Rat
  | .undef => 0
  | .null => 0
  | .num q => if q / 100 = 0 then 0 else q / 100

/-- The payment record built by the payment-success handler
(src/index.js:653): metadata identifiers, the transaction reference, the
derived amount, `status: "completed"` and `paidAt`. -/
def mkPayment (s : Session) (now : Nat) : Payment :=
  { applicationId := s.applicationId, tuitionId := s.tuitionId,
    transactionId := s.payment_intent, studentEmail := s.studentEmail,
    tutorEmail := s.tutorEmail, amount := jsAmount s.amount_total,
    status := "completed", paidAt := now }

/-- `POST /payment-success` (src/index.js:624), after the session has been
retrieved: `findOne` an order by `transactionId = session.payment_intent`
and answer it unchanged when found; otherwise insert the payment record,
set the named application to `approved`, set every other still-`pending`
application of the session's `tuitionId` to `rejected`, and set the listing
to `hired` with `hiredTutor` the metadata `tutorEmail`.  Neither the
listing nor the application is loaded or validated first, and
`session.payment_status` is never read. -/
def paymentSuccess (db : DB) (s : Session) (now : Nat) : DB × Res :=
  match db.orders.find? (fun p => p.transactionId == s.payment_intent) with
  | some p => (db, .okReplay p)
  | none =>
    let pay := mkPayment s now
    let apps1 :=
      updA (fun k _ => k == s.applicationId) (approveApp now) db.applications
    let apps2 :=
      updA (fun k a =>
          a.tuitionId == s.tuitionId && k != s.applicationId &&
            a.status == "pending")
        (rejectApp now) apps1
    let tuits :=
      updA (fun k _ => k == s.tuitionId) (hireListing s.tutorEmail now)
        db.tuitions
    ({ tuitions := tuits, applications := apps2, orders := pay :: db.orders },
      .created pay)

/-- One lifecycle request, for reasoning about arbitrary operation
sequences. -/
inductive Op where
  | createT (id owner : String) (attrs : Nat)
  | approveT (id : String)
  | rejectT (id : String)
  | updateT (id requester : String) (attrs : Nat)
  | deleteT (id requester : String)
  | applyA (appId tutor tuitionId : String) (bid : Nat)
  | amendA (appId requester : String) (bid : Nat)
  | deleteA (appId requester : String)
  | rejectA (appId requester : String)
  | reconcile (s : Session)
deriving DecidableEq

/-- The state reached by one request arriving at time `now`. -/
def step (db : DB) : Op → Nat → DB
  | .createT id owner attrs, now => (postTuition db owner attrs id now).1
  | .approveT id, now => (adminApproveTuition db id now).1
  | .rejectT id, now => (adminRejectTuition db id now).1
  | .updateT id requester attrs, now => (updateTuition db id requester attrs now).1
  | .deleteT id requester, _ => (deleteTuition db id requester).1
  | .applyA appId tutor tuitionId bid, now =>
      (postApplication db tutor tuitionId bid appId now).1
  | .amendA appId requester bid, now =>
      (patchApplication db appId requester bid now).1
  | .deleteA appId requester, _ => (deleteApplication db appId requester).1
  | .rejectA appId requester, now => (rejectApplication db appId requester now).1
  | .reconcile s, now => (paymentSuccess db s now).1

/-- The state reached by a sequence of timestamped requests. -/
def run (db : DB) : List (Op × Nat) → DB
  | [] => db
  | (op, now) :: rest => run (step db op now) rest

/-- Looking a key up after a pointwise update applies the rewrite exactly
when the stored entry satisfies the filter. -/
theorem findA_updA {α : Type} (p : String → α → Bool) (f : α → α)
    (m : List (String × α)) (k : String) :
    findA (updA p f m) k =
      (findA m k).map fun v => if p k v then f v else v := by
  induction m with
  | nil => rfl
  | cons kv t ih =>
    obtain ⟨k', v⟩ := kv
    simp only [updA]
    by_cases hp : p k' v
    · rw [if_pos hp]
      by_cases hk : k' = k
      · subst hk
        simp [findA, hp]
      · simp [findA, hk, ih]
    · rw [if_neg hp]
      by_cases hk : k' = k
      · subst hk
        simp [findA, hp]
      · simp [findA, hk, ih]

/-- Every entry of an updated store comes from an entry of the original
store with the same key, rewritten exactly when the filter held of it. -/
theorem mem_updA {α : Type} {p : String → α → Bool} {f : α → α}
    {m : List (String × α)} {kv : String × α} (h : kv ∈ updA p f m) :
    ∃ v₀, (kv.1, v₀) ∈ m ∧ kv.2 = if p kv.1 v₀ then f v₀ else v₀ := by
  induction m with
  | nil => simp [updA] at h
  | cons kw t ih =>
    obtain ⟨k, v⟩ := kw
    by_cases hp : p k v
    · simp only [updA, hp, if_pos, List.mem_cons] at h
      rcases h with h | h
      · subst h
        exact ⟨v, List.mem_cons_self _ _, by simp [hp]⟩
      · obtain ⟨v₀, hv₀, he⟩ := ih h
        exact ⟨v₀, List.mem_cons_of_mem _ hv₀, he⟩
    · simp only [updA, hp, if_neg, List.mem_cons] at h
      rcases h with h | h
      · subst h
        exact ⟨v, List.mem_cons_self _ _, by simp [hp]⟩
      · obtain ⟨v₀, hv₀, he⟩ := ih h
        exact ⟨v₀, List.mem_cons_of_mem _ hv₀, he⟩

/-- Every entry surviving a deletion is an original entry failing the
deletion filter. -/
theorem mem_delA {α : Type} {p : String → α → Bool}
    {m : List (String × α)} {kv : String × α} (h : kv ∈ delA p m) :
    kv ∈ m ∧ p kv.1 kv.2 = false := by
  have h' := List.mem_filter.mp h
  exact ⟨h'.1, by simpa using h'.2⟩

/-- C1: when the transaction reference of a confirmation event already has a
payment record, reconciliation answers with exactly that record and changes
nothing — the state is returned untouched, so no second payment row appears
and no listing or application moves; and after a first (fresh) reconciliation
any replay answers with the payment the first run created, leaving exactly
one payment row for the reference. -/
theorem replay_returns_existing_payment (db : DB) (s : Session)
    (now now2 : Nat) (p : Payment) :
    (db.orders.find? (fun q => q.transactionId == s.payment_intent) = some p →
      paymentSuccess db s now = (db, .okReplay p)) ∧
    (db.orders.find? (fun q => q.transactionId == s.payment_intent) = none →
      paymentSuccess (paymentSuccess db s now).1 s now2 =
          ((paymentSuccess db s now).1, .okReplay (mkPayment s now)) ∧
        ((paymentSuccess db s now).1.orders.filter
            (fun q => q.transactionId == s.payment_intent)).length = 1) := by
  have replay : ∀ (Y : DB) (pp : Payment) (n : Nat),
      Y.orders.find? (fun q => q.transactionId == s.payment_intent) = some pp →
      paymentSuccess Y s n = (Y, .okReplay pp) := by
    intro Y pp n hf
    simp [paymentSuccess, hf]
  constructor
  · intro h
    exact replay db p now h
  · intro h
    have h1 : (paymentSuccess db s now).1.orders = mkPayment s now :: db.orders := by
      simp [paymentSuccess, h]
    have hall : ∀ q ∈ db.orders, ¬(q.transactionId == s.payment_intent) = true :=
      List.find?_eq_none.mp h
    have hhit : ((mkPayment s now).transactionId == s.payment_intent) = true := by
      simp [mkPayment]
    have hnil : db.orders.filter (fun q => q.transactionId == s.payment_intent) = [] :=
      List.filter_eq_nil_iff.mpr hall
    constructor
    · refine replay _ (mkPayment s now) now2 ?_
      rw [h1]
      simp [List.find?_cons, hhit]
    · rw [h1]
      simp [List.filter_cons, hhit, hnil]

/-- The payment record on file for the replay scenario of C1. -/
def payW1 : Payment :=
  { applicationId := "A1", tuitionId := "L1", transactionId := "tx1",
    studentEmail := "s1", tutorEmail := "T1", amount := 5,
    status := "completed", paidAt := 1 }

/-- The hired listing already settled by `payW1`. -/
def lisW1 : Listing :=
  { owner := "s1", attrs := 0, status := "hired", hiredTutor := some "T1",
    hiredAt := some 1 }

/-- The approved application already settled by `payW1`. -/
def appW1 : Application :=
  { tuitionId := "L1", tutorEmail := "T1", bid := 5, status := "approved",
    approvedAt := some 1 }

/-- A store already holding `payW1`, together with the listing and
application it settled. -/
def dbW1 : DB :=
  { tuitions := [("L1", lisW1)], applications := [("A1", appW1)],
    orders := [payW1] }

/-- The confirmation event for transaction `tx1`, replayed. -/
def sessW1 : Session :=
  { payment_intent := "tx1", payment_status := "paid",
    amount_total := .num 500, applicationId := "A1", tuitionId := "L1",
    studentEmail := "s1", tutorEmail := "T1" }

/-- Witness for C1 at a concrete store: the replay returns the stored
payment and the whole state is unchanged. -/
theorem replay_returns_existing_payment_witness :
    paymentSuccess dbW1 sessW1 7 = (dbW1, .okReplay payW1) :=
  (replay_returns_existing_payment dbW1 sessW1 7 8 payW1).1 (by decide)

/-- A listing that is already hired, so reconciliation's claimed
`InvalidState` precondition (status not `approved`) applies to it. -/
def lisX2 : Listing :=
  { owner := "s1", attrs := 0, status := "hired", hiredTutor := some "T0",
    hiredAt := some 1 }

/-- An application that is already decided, so the claimed `InvalidState`
precondition (status not `pending`) applies to it as well. -/
def appX2 : Application :=
  { tuitionId := "L1", tutorEmail := "T1", bid := 5, status := "approved",
    approvedAt := some 1 }

/-- A store in which both claimed preconditions of reconciliation fail and
no payment exists yet. -/
def dbX2 : DB :=
  { tuitions := [("L1", lisX2)], applications := [("A1", appX2)], orders := [] }

/-- A fresh confirmation event naming the already-hired listing and the
already-approved application. -/
def sessX2 : Session :=
  { payment_intent := "tx2", payment_status := "paid",
    amount_total := .num 500, applicationId := "A1", tuitionId := "L1",
    studentEmail := "s1", tutorEmail := "T1" }

/-- Counterexample to C2: with the listing hired (not `approved`) and the
application approved (not `pending`), the claim requires reconciliation to
fail with `InvalidState`, creating no payment and mutating nothing; the
handler instead answers `created`, inserts the payment row, and rewrites the
listing's hire fields. -/
theorem reconcile_skips_validation_cex :
    (findA dbX2.tuitions "L1").map Listing.status = some "hired" ∧
    (findA dbX2.applications "A1").map Application.status = some "approved" ∧
    dbX2.orders = [] ∧
    (paymentSuccess dbX2 sessX2 7).2 = .created (mkPayment sessX2 7) ∧
    (paymentSuccess dbX2 sessX2 7).1.orders = [mkPayment sessX2 7] ∧
    findA (paymentSuccess dbX2 sessX2 7).1.tuitions "L1" =
      some (hireListing "T1" 7 lisX2) := by
  refine ⟨by decide, by decide, by decide, ?_, ?_, ?_⟩ <;>
    simp [paymentSuccess, dbX2, sessX2, findA, updA, lisX2, hireListing]

/-- C2 (amended): reconciliation performs no precondition validation at all.
Apart from the idempotency lookup, the handler never loads the listing or
the application: for any fresh transaction reference it answers `created`
and inserts the payment record, whatever the state — or existence — of the
listing and the application named by the event. -/
theorem reconcile_unconditional_on_fresh_ref (db : DB) (s : Session)
    (now : Nat)
    (h : db.orders.find? (fun q => q.transactionId == s.payment_intent) = none) :
    (paymentSuccess db s now).2 = .created (mkPayment s now) ∧
    (paymentSuccess db s now).1.orders = mkPayment s now :: db.orders := by
  simp [paymentSuccess, h]

/-- Witness for the amended C2 on a store where the listing and application
are entirely missing: the payment is still created. -/
theorem reconcile_unconditional_on_fresh_ref_witness :
    (paymentSuccess {} sessX2 7).2 = .created (mkPayment sessX2 7) ∧
    (paymentSuccess {} sessX2 7).1.orders = [mkPayment sessX2 7] :=
  reconcile_unconditional_on_fresh_ref {} sessX2 7 (by rfl)

/-- A store whose single listing has already been moderated to
`approved`. -/
def dbX5 : DB :=
  (adminApproveTuition (postTuition {} "s1" 0 "L1" 0).1 "L1" 1).1

/-- Counterexample to C5: the listing's status is `approved`, not `pending`,
so the claim requires a further moderation to fail with `InvalidTransition`
and leave the listing unchanged; the admin reject endpoint instead reports
success and moves the listing to `rejected`. -/
theorem moderation_guard_cex :
    (findA dbX5.tuitions "L1").map Listing.status = some "approved" ∧
    (adminRejectTuition dbX5 "L1" 2).2 = .ok ∧
    (findA (adminRejectTuition dbX5 "L1" 2).1.tuitions "L1").map
      Listing.status = some "rejected" := by
  decide

/-- C5 (amended): admin moderation is unguarded.  Approve and reject always
report success and set the decided status and its timestamp on the named
listing whatever its current status — pending, approved, rejected or hired
alike. -/
theorem moderation_unguarded (db : DB) (id : String) (now : Nat) :
    (adminApproveTuition db id now).2 = .ok ∧
    (adminRejectTuition db id now).2 = .ok ∧
    findA (adminApproveTuition db id now).1.tuitions id =
      (findA db.tuitions id).map (approveListing now) ∧
    findA (adminRejectTuition db id now).1.tuitions id =
      (findA db.tuitions id).map (rejectListing now) := by
  refine ⟨rfl, rfl, ?_, ?_⟩ <;>
    simp [adminApproveTuition, adminRejectTuition, findA_updA]

/-- A store whose only listing is still `pending` — by C6 a tutor must not
be able to apply to it. -/
def dbX6 : DB := (postTuition {} "s1" 0 "L1" 0).1

/-- Counterexample to C6: the listing is `pending`, not `approved`, so the
claim requires the apply to fail with `InvalidState`; the endpoint instead
reports success and inserts a pending application. -/
theorem apply_ignores_listing_status_cex :
    (findA dbX6.tuitions "L1").map Listing.status = some "pending" ∧
    (postApplication dbX6 "T1" "L1" 10 "A1" 3).2 = .ok ∧
    findA (postApplication dbX6 "T1" "L1" 10 "A1" 3).1.applications "A1" =
      some (mkApp "L1" "T1" 10 3) := by
  decide

/-- C6 (amended): apply answers `Conflict` whenever any application by the
same tutor for the same listing exists (there is no withdrawn status: the
duplicate check matches every status), otherwise it inserts a new pending
application — and the outcome never depends on the listings store, so the
target listing's status (or existence) is not checked at all. -/
theorem apply_conflict_or_unchecked_insert (db : DB)
    (ts : List (String × Listing)) (tutor tid : String) (bid : Nat)
    (appId : String) (now : Nat) :
    ((∃ kv ∈ db.applications, kv.2.tuitionId = tid ∧ kv.2.tutorEmail = tutor) →
      postApplication db tutor tid bid appId now = (db, .conflict)) ∧
    ((∀ kv ∈ db.applications,
        ¬(kv.2.tuitionId = tid ∧ kv.2.tutorEmail = tutor)) →
      postApplication db tutor tid bid appId now =
        ({ db with applications :=
            (appId, mkApp tid tutor bid now) :: db.applications }, .ok)) ∧
    (postApplication { db with tuitions := ts } tutor tid bid appId now).2 =
      (postApplication db tutor tid bid appId now).2 := by
  refine ⟨?_, ?_, ?_⟩
  · rintro ⟨kv, hm, h1, h2⟩
    have hs : (db.applications.find?
        (fun kv => kv.2.tuitionId == tid && kv.2.tutorEmail == tutor)).isSome := by
      rw [List.find?_isSome]
      exact ⟨kv, hm, by simp [h1, h2]⟩
    obtain ⟨a, ha⟩ := Option.isSome_iff_exists.mp hs
    simp [postApplication, ha]
  · intro hnone
    have hn : db.applications.find?
        (fun kv => kv.2.tuitionId == tid && kv.2.tutorEmail == tutor) = none := by
      rw [List.find?_eq_none]
      intro kv hm
      simpa using hnone kv hm
    simp [postApplication, hn]
  · rcases hf : db.applications.find?
        (fun kv => kv.2.tuitionId == tid && kv.2.tutorEmail == tutor) with _ | a <;>
      simp [postApplication, hf]

/-- Witness for the amended C6: on a store with no applications the apply
succeeds and inserts the pending application, although the listing is only
`pending`. -/
theorem apply_conflict_or_unchecked_insert_witness :
    postApplication dbX6 "T1" "L1" 10 "A1" 3 =
      ({ dbX6 with applications := [("A1", mkApp "L1" "T1" 10 3)] }, .ok) :=
  (apply_conflict_or_unchecked_insert dbX6 [] "T1" "L1" 10 "A1" 3).2.1
    (by decide)

/-- A listing that is already staffed: by C7 its owner must not be able to
edit it any more. -/
def lisX7 : Listing :=
  { owner := "s1", attrs := 1, status := "hired", hiredTutor := some "T1",
    hiredAt := some 2 }

/-- A store holding only the staffed listing `lisX7`. -/
def dbX7 : DB := { tuitions := [("L1", lisX7)] }

/-- Counterexample to C7: the listing is `hired`, so the claim requires the
owner's update to fail with `InvalidTransition` and leave the listing
unchanged; the endpoint instead reports success and rewrites the listing's
payload. -/
theorem update_hired_listing_cex :
    lisX7.status = "hired" ∧ lisX7.owner = "s1" ∧
    (updateTuition dbX7 "L1" "s1" 42 9).2 = .ok ∧
    findA (updateTuition dbX7 "L1" "s1" 42 9).1.tuitions "L1" =
      some (setAttrs 42 9 lisX7) := by
  decide

/-- C7 (amended): an update of an existing listing fails with `Forbidden`
for a non-owner and with `InvalidTransition` only when the status is
`approved`; in every other status — pending, rejected, and also hired — the
owner's update succeeds and rewrites the payload. -/
theorem update_guards (db : DB) (id requester : String) (attrs now : Nat)
    (t : Listing) (hfind : findA db.tuitions id = some t) :
    (t.owner ≠ requester →
      updateTuition db id requester attrs now = (db, .forbidden)) ∧
    (t.owner = requester → t.status = "approved" →
      updateTuition db id requester attrs now = (db, .cannotUpdate)) ∧
    (t.owner = requester → t.status ≠ "approved" →
      (updateTuition db id requester attrs now).2 = .ok ∧
      findA (updateTuition db id requester attrs now).1.tuitions id =
        some (setAttrs attrs now t)) := by
  refine ⟨?_, ?_, ?_⟩
  · intro hno
    simp [updateTuition, hfind, hno]
  · intro ho hs
    simp [updateTuition, hfind, ho, hs]
  · intro ho hs
    constructor
    · simp [updateTuition, hfind, ho, hs]
    · simp [updateTuition, hfind, ho, hs, findA_updA]

/-- Witness for the amended C7: a stranger's update of the staffed listing
is refused with `Forbidden`. -/
theorem update_guards_witness :
    updateTuition dbX7 "L1" "T9" 42 9 = (dbX7, .forbidden) :=
  (update_guards dbX7 "L1" "T9" 42 9 lisX7 (by rfl)).1 (by decide)

/-- An approved listing about to be deleted by its owner. -/
def lisX8 : Listing :=
  { owner := "s1", attrs := 0, status := "approved", approvedAt := some 1 }

/-- The pending application riding on `lisX8`. -/
def appX8 : Application := mkApp "L1" "T1" 10 2

/-- A store holding `lisX8` and its pending application. -/
def dbX8 : DB :=
  { tuitions := [("L1", lisX8)], applications := [("A1", appX8)] }

/-- Counterexample to C8: after the owner's delete, the listing's
application is not "marked withdrawn" — the record is deleted outright, so
no application row for it remains at all. -/
theorem delete_cascade_cex :
    findA dbX8.applications "A1" = some appX8 ∧ appX8.tuitionId = "L1" ∧
    appX8.status = "pending" ∧
    deleteTuition dbX8 "L1" "s1" = ({}, .ok) ∧
    findA (deleteTuition dbX8 "L1" "s1").1.applications "A1" = none := by
  decide

/-- C8 (amended): deleting a listing is owner-only, and on success the
cascade deletes — rather than marks withdrawn — every application with that
listing id: afterwards the listing is gone and no application against it
remains in the store (so none could later be approved). -/
theorem delete_cascade_removes_applications (db : DB) (id requester : String)
    (t : Listing) (hfind : findA db.tuitions id = some t) :
    (t.owner ≠ requester → deleteTuition db id requester = (db, .forbidden)) ∧
    (t.owner = requester →
      (deleteTuition db id requester).2 = .ok ∧
      (∀ kv ∈ (deleteTuition db id requester).1.tuitions, kv.1 ≠ id) ∧
      (∀ kv ∈ (deleteTuition db id requester).1.applications,
        kv.2.tuitionId ≠ id)) := by
  refine ⟨?_, ?_⟩
  · intro hno
    simp [deleteTuition, hfind, hno]
  · intro ho
    have h1 : (deleteTuition db id requester).2 = .ok := by
      simp [deleteTuition, hfind, ho]
    have h2 : (deleteTuition db id requester).1.tuitions =
        delA (fun k _ => k == id) db.tuitions := by
      simp [deleteTuition, hfind, ho]
    have h3 : (deleteTuition db id requester).1.applications =
        delA (fun _ a => a.tuitionId == id) db.applications := by
      simp [deleteTuition, hfind, ho]
    refine ⟨h1, ?_, ?_⟩
    · intro kv hm
      rw [h2] at hm
      simpa using (mem_delA hm).2
    · intro kv hm
      rw [h3] at hm
      simpa using (mem_delA hm).2

/-- Witness for the amended C8 at the concrete store: the owner's delete
succeeds. -/
theorem delete_cascade_removes_applications_witness :
    (deleteTuition dbX8 "L1" "s1").2 = .ok :=
  ((delete_cascade_removes_applications dbX8 "L1" "s1" lisX8 (by rfl)).2
    (by rfl)).1

/-- C3: a first-time reconciliation of a confirmation event — one whose
metadata round-tripped from checkout, so the event's tutor is the named
application's tutor — approves the named application, rejects exactly the
other still-pending applications of the listing while leaving every
already-decided one untouched, and moves the listing to `hired` with
`hiredTutor` the hired application's tutor; afterwards no pending
application remains on that listing. -/
theorem hire_reconciliation_transitions (db : DB) (s : Session) (now : Nat)
    (a : Application) (t : Listing)
    (hfresh : db.orders.find?
      (fun q => q.transactionId == s.payment_intent) = none)
    (happ : findA db.applications s.applicationId = some a)
    (htut : a.tutorEmail = s.tutorEmail)
    (hlis : findA db.tuitions s.tuitionId = some t) :
    findA (paymentSuccess db s now).1.applications s.applicationId =
      some (approveApp now a) ∧
    (∀ k b, k ≠ s.applicationId → findA db.applications k = some b →
      findA (paymentSuccess db s now).1.applications k =
        some (if b.tuitionId = s.tuitionId ∧ b.status = "pending"
          then rejectApp now b else b)) ∧
    findA (paymentSuccess db s now).1.tuitions s.tuitionId =
      some (hireListing a.tutorEmail now t) ∧
    (∀ kv ∈ (paymentSuccess db s now).1.applications,
      kv.2.tuitionId = s.tuitionId → kv.2.status ≠ "pending") := by
  have hA : (paymentSuccess db s now).1.applications =
      updA (fun k a => a.tuitionId == s.tuitionId && k != s.applicationId &&
          a.status == "pending") (rejectApp now)
        (updA (fun k _ => k == s.applicationId) (approveApp now)
          db.applications) := by
    simp [paymentSuccess, hfresh]
  have hT : (paymentSuccess db s now).1.tuitions =
      updA (fun k _ => k == s.tuitionId) (hireListing s.tutorEmail now)
        db.tuitions := by
    simp [paymentSuccess, hfresh]
  refine ⟨?_, ?_, ?_, ?_⟩
  · rw [hA, findA_updA, findA_updA, happ]
    simp [approveApp]
  · intro k b hk hfb
    rw [hA, findA_updA, findA_updA, hfb]
    by_cases h1 : b.tuitionId = s.tuitionId <;>
      by_cases h2 : b.status = "pending" <;>
        simp [hk, h1, h2]
  · rw [hT, findA_updA, hlis, htut]
    simp
  · intro kv hm htid
    rw [hA] at hm
    obtain ⟨v₁, hv₁m, hv₁e⟩ := mem_updA hm
    by_cases hp : (v₁.tuitionId == s.tuitionId && kv.1 != s.applicationId &&
        v₁.status == "pending") = true
    · rw [hv₁e, if_pos hp]
      simp [rejectApp]
    · rw [hv₁e, if_neg hp] at htid ⊢
      intro hpend
      have hk1 : kv.1 = s.applicationId := by
        by_contra hne
        exact hp (by simp [htid, hpend, hne])
      obtain ⟨v₀, hv₀m, hv₀e⟩ := mem_updA hv₁m
      rw [hk1] at hv₀e
      have hv₁ : v₁ = approveApp now v₀ := by simpa using hv₀e
      rw [hv₁] at hpend
      simp [approveApp] at hpend

/-- The approved listing of the §8 scenario. -/
def lisW3 : Listing :=
  { owner := "s1", attrs := 0, status := "approved", approvedAt := some 1 }

/-- The winning pending application of the §8 scenario. -/
def appW3a : Application := mkApp "L1" "T1" 100 2

/-- The losing pending application of the §8 scenario. -/
def appW3b : Application := mkApp "L1" "T2" 120 2

/-- The §8 scenario store: one approved listing, two pending
applications. -/
def dbW3 : DB :=
  { tuitions := [("L1", lisW3)],
    applications := [("A1", appW3a), ("A2", appW3b)] }

/-- The §8 scenario confirmation event for the winning application. -/
def sessW3 : Session :=
  { payment_intent := "tx9", payment_status := "paid",
    amount_total := .num 500, applicationId := "A1", tuitionId := "L1",
    studentEmail := "s1", tutorEmail := "T1" }

/-- Witness for C3 at the §8 scenario: the winner is approved, the loser is
rejected, the listing is hired with the winner's tutor. -/
theorem hire_reconciliation_transitions_witness :
    findA (paymentSuccess dbW3 sessW3 9).1.applications "A1" =
      some (approveApp 9 appW3a) ∧
    findA (paymentSuccess dbW3 sessW3 9).1.applications "A2" =
      some (rejectApp 9 appW3b) ∧
    findA (paymentSuccess dbW3 sessW3 9).1.tuitions "L1" =
      some (hireListing "T1" 9 lisW3) := by
  obtain ⟨h1, h2, h3, h4⟩ :=
    hire_reconciliation_transitions dbW3 sessW3 9 appW3a lisW3 (by decide)
      (by decide) (by decide) (by decide)
  refine ⟨h1, ?_, h3⟩
  have h5 := h2 "A2" appW3b (by decide) (by decide)
  rw [if_pos (by decide)] at h5
  exact h5

/-- C9: the payment-success handler never inspects the retrieved session's
`payment_status` — its outcome is identical for every value of that field —
and on a fresh transaction reference it creates a `completed` payment and
performs the approve/hire transitions whether or not the gateway reports
the session as paid. -/
theorem payment_status_ignored (db : DB) (s : Session) (ps : String)
    (now : Nat)
    (hfresh : db.orders.find?
      (fun q => q.transactionId == s.payment_intent) = none) :
    paymentSuccess db { s with payment_status := ps } now =
      paymentSuccess db s now ∧
    (paymentSuccess db s now).2 = .created (mkPayment s now) ∧
    (mkPayment s now).status = "completed" ∧
    findA (paymentSuccess db s now).1.tuitions s.tuitionId =
      (findA db.tuitions s.tuitionId).map (hireListing s.tutorEmail now) ∧
    findA (paymentSuccess db s now).1.applications s.applicationId =
      (findA db.applications s.applicationId).map (approveApp now) := by
  refine ⟨?_, ?_, rfl, ?_, ?_⟩
  · simp [paymentSuccess, hfresh, mkPayment]
  · simp [paymentSuccess, hfresh]
  · simp [paymentSuccess, hfresh, findA_updA]
  · simp [paymentSuccess, hfresh, findA_updA]
    rfl

/-- A session the gateway reports as unpaid. -/
def sessW9 : Session :=
  { payment_intent := "tx3", payment_status := "unpaid",
    amount_total := .num 500, applicationId := "A1", tuitionId := "L1",
    studentEmail := "s1", tutorEmail := "T1" }

/-- Witness for C9: an unpaid session is processed exactly like a paid one,
and still yields a `completed` payment record. -/
theorem payment_status_ignored_witness :
    paymentSuccess {} { sessW9 with payment_status := "paid" } 4 =
      paymentSuccess {} sessW9 4 ∧
    (paymentSuccess {} sessW9 4).2 = .created (mkPayment sessW9 4) :=
  have h := payment_status_ignored {} sessW9 "paid" 4 (by rfl)
  ⟨h.1, h.2.1⟩

/-- C10: the stored amount of every newly created payment record is
`amount_total / 100` when that quotient is a nonzero number, and `0`
otherwise — in particular a confirmation whose `amount_total` is missing,
null or zero yields a payment with amount `0` and status `completed`. -/
theorem payment_amount_derivation (db : DB) (s : Session) (now : Nat)
    (q : Rat)
    (hfresh : db.orders.find?
      (fun p => p.transactionId == s.payment_intent) = none) :
    (paymentSuccess db s now).2 = .created (mkPayment s now) ∧
    (mkPayment s now).status = "completed" ∧
    (s.amount_total = .num q → q ≠ 0 →
      (mkPayment s now).amount = q / 100 ∧ (mkPayment s now).amount ≠ 0) ∧
    ((s.amount_total = .undef ∨ s.amount_total = .null ∨
        s.amount_total = .num 0) → (mkPayment s now).amount = 0) := by
  refine ⟨by simp [paymentSuccess, hfresh], rfl, ?_, ?_⟩
  · intro hat hq
    have hq' : q / 100 ≠ 0 := by
      simp [div_eq_zero_iff, hq]
    constructor
    · simp [mkPayment, jsAmount, hat, hq']
    · simp [mkPayment, jsAmount, hat, hq']
  · rintro (h | h | h) <;> simp [mkPayment, jsAmount, h]

/-- A fresh confirmation event whose settled total is 500 minor units. -/
def sessW10 : Session :=
  { payment_intent := "tx4", payment_status := "paid",
    amount_total := .num 500, applicationId := "A1", tuitionId := "L1",
    studentEmail := "s1", tutorEmail := "T1" }

/-- Witness for C10: a settled total of 500 is stored as the nonzero amount
500 / 100. -/
theorem payment_amount_derivation_witness :
    (mkPayment sessW10 3).amount = 500 / 100 ∧
    (mkPayment sessW10 3).amount ≠ 0 ∧
    (paymentSuccess {} sessW10 3).2 = .created (mkPayment sessW10 3) :=
  have h := payment_amount_derivation {} sessW10 3 500 (by rfl)
  have h' := h.2.2.1 (by rfl) (by norm_num)
  ⟨h'.1, h'.2, h.1⟩

/-- The one-directional hire invariant on a listings store: every listing
whose status is `hired` carries a hired tutor. -/
def listingsOk (m : List (String × Listing)) : Prop :=
  ∀ kv ∈ m, kv.2.status = "hired" → kv.2.hiredTutor ≠ none

/-- A pointwise update preserves `listingsOk` whenever its rewrite either
certifies the invariant on its own output or leaves status and hired tutor
alone. -/
theorem listingsOk_updA {m : List (String × Listing)} (h : listingsOk m)
    (p : String → Listing → Bool) (f : Listing → Listing)
    (hf : ∀ v, ((f v).status = "hired" → (f v).hiredTutor ≠ none) ∨
      ((f v).status = v.status ∧ (f v).hiredTutor = v.hiredTutor)) :
    listingsOk (updA p f m) := by
  intro kv hm hst
  obtain ⟨v₀, hv₀, he⟩ := mem_updA hm
  by_cases hp : p kv.1 v₀ = true
  · rw [he, if_pos hp] at hst ⊢
    rcases hf v₀ with hc | ⟨hs, ht⟩
    · exact hc hst
    · rw [ht]
      rw [hs] at hst
      exact h (kv.1, v₀) hv₀ hst
  · rw [he, if_neg hp] at hst ⊢
    exact h (kv.1, v₀) hv₀ hst

/-- Deletion preserves `listingsOk`. -/
theorem listingsOk_delA {m : List (String × Listing)} (h : listingsOk m)
    (p : String → Listing → Bool) : listingsOk (delA p m) :=
  fun kv hm => h kv (mem_delA hm).1

/-- Every single lifecycle request preserves the hire invariant on the
listings store. -/
theorem listingsOk_step {db : DB} (h : listingsOk db.tuitions) (op : Op)
    (now : Nat) : listingsOk (step db op now).tuitions := by
  cases op with
  | createT id owner attrs =>
    intro kv hm hst
    simp only [step, postTuition] at hm
    rcases List.mem_cons.mp hm with he | hm'
    · rw [he] at hst
      simp at hst
    · exact h kv hm' hst
  | approveT id =>
    have ht : (step db (.approveT id) now).tuitions =
        updA (fun k _ => k == id) (approveListing now) db.tuitions := by
      simp [step, adminApproveTuition]
    rw [ht]
    refine listingsOk_updA h _ _ fun v => Or.inl fun hs => ?_
    simp [approveListing] at hs
  | rejectT id =>
    have ht : (step db (.rejectT id) now).tuitions =
        updA (fun k _ => k == id) (rejectListing now) db.tuitions := by
      simp [step, adminRejectTuition]
    rw [ht]
    refine listingsOk_updA h _ _ fun v => Or.inl fun hs => ?_
    simp [rejectListing] at hs
  | updateT id requester attrs =>
    have hcase : (updateTuition db id requester attrs now).1.tuitions =
        db.tuitions ∨
        (updateTuition db id requester attrs now).1.tuitions =
          updA (fun k _ => k == id) (setAttrs attrs now) db.tuitions := by
      rcases hf : findA db.tuitions id with _ | t
      · left
        simp [updateTuition, hf]
      · by_cases h1 : t.owner = requester
        · by_cases h2 : t.status = "approved"
          · left
            simp [updateTuition, hf, h1, h2]
          · right
            simp [updateTuition, hf, h1, h2]
        · left
          simp [updateTuition, hf, h1]
    show listingsOk (updateTuition db id requester attrs now).1.tuitions
    rcases hcase with hc | hc
    · rw [hc]
      exact h
    · rw [hc]
      exact listingsOk_updA h _ _ fun v => Or.inr (by simp [setAttrs])
  | deleteT id requester =>
    have hcase : (deleteTuition db id requester).1.tuitions = db.tuitions ∨
        (deleteTuition db id requester).1.tuitions =
          delA (fun k _ => k == id) db.tuitions := by
      rcases hf : findA db.tuitions id with _ | t
      · left
        simp [deleteTuition, hf]
      · by_cases h1 : t.owner = requester
        · right
          simp [deleteTuition, hf, h1]
        · left
          simp [deleteTuition, hf, h1]
    show listingsOk (deleteTuition db id requester).1.tuitions
    rcases hcase with hc | hc
    · rw [hc]
      exact h
    · rw [hc]
      exact listingsOk_delA h _
  | applyA appId tutor tuitionId bid =>
    have ht : (postApplication db tutor tuitionId bid appId now).1.tuitions =
        db.tuitions := by
      rcases hf : db.applications.find?
          (fun kv => kv.2.tuitionId == tuitionId &&
            kv.2.tutorEmail == tutor) with _ | a <;>
        simp [postApplication, hf]
    show listingsOk (postApplication db tutor tuitionId bid appId now).1.tuitions
    rw [ht]
    exact h
  | amendA appId requester bid =>
    have ht : (patchApplication db appId requester bid now).1.tuitions =
        db.tuitions := by
      rcases hf : findA db.applications appId with _ | a
      · simp [patchApplication, hf]
      · by_cases h1 : a.tutorEmail = requester
        · by_cases h2 : a.status = "pending" <;>
            simp [patchApplication, hf, h1, h2]
        · simp [patchApplication, hf, h1]
    show listingsOk (patchApplication db appId requester bid now).1.tuitions
    rw [ht]
    exact h
  | deleteA appId requester =>
    have ht : (deleteApplication db appId requester).1.tuitions =
        db.tuitions := by
      rcases hf : findA db.applications appId with _ | a
      · simp [deleteApplication, hf]
      · by_cases h1 : a.tutorEmail = requester
        · by_cases h2 : a.status = "pending" <;>
            simp [deleteApplication, hf, h1, h2]
        · simp [deleteApplication, hf, h1]
    show listingsOk (deleteApplication db appId requester).1.tuitions
    rw [ht]
    exact h
  | rejectA appId requester =>
    have ht : (rejectApplication db appId requester now).1.tuitions =
        db.tuitions := by
      rcases hf : findA db.applications appId with _ | a
      · simp [rejectApplication, hf]
      · rcases hg : findA db.tuitions a.tuitionId with _ | t
        · simp [rejectApplication, hf, hg]
        · by_cases h1 : t.owner = requester <;>
            simp [rejectApplication, hf, hg, h1]
    show listingsOk (rejectApplication db appId requester now).1.tuitions
    rw [ht]
    exact h
  | reconcile s =>
    have hcase : (paymentSuccess db s now).1.tuitions = db.tuitions ∨
        (paymentSuccess db s now).1.tuitions =
          updA (fun k _ => k == s.tuitionId) (hireListing s.tutorEmail now)
            db.tuitions := by
      rcases hf : db.orders.find?
          (fun p => p.transactionId == s.payment_intent) with _ | p
      · right
        simp [paymentSuccess, hf]
      · left
        simp [paymentSuccess, hf]
    show listingsOk (paymentSuccess db s now).1.tuitions
    rcases hcase with hc | hc
    · rw [hc]
      exact h
    · rw [hc]
      refine listingsOk_updA h _ _ fun v => Or.inl fun _ => ?_
      simp [hireListing]

/-- The hire invariant is preserved along any sequence of requests. -/
theorem listingsOk_run {db : DB} (h : listingsOk db.tuitions)
    (ops : List (Op × Nat)) : listingsOk (run db ops).tuitions := by
  induction ops generalizing db with
  | nil => exact h
  | cons p rest ih =>
    obtain ⟨op, n⟩ := p
    exact ih (listingsOk_step h op n)

/-- The confirmation event hiring tutor `T1` for listing `L1`, used in the
C4 scenarios. -/
def sessX4 : Session :=
  { payment_intent := "tx1", payment_status := "paid",
    amount_total := .num 500, applicationId := "A1", tuitionId := "L1",
    studentEmail := "s1", tutorEmail := "T1" }

/-- Create, approve, apply, reconcile a hire — then admin-reject the hired
listing. -/
def seqX4 : List (Op × Nat) :=
  [(.createT "L1" "s1" 0, 0), (.approveT "L1", 1),
   (.applyA "A1" "T1" "L1" 100, 2), (.reconcile sessX4, 3),
   (.rejectT "L1", 4)]

/-- Counterexample to C4: after create → approve → apply → reconcile →
admin reject, the listing keeps `hiredTutor = "T1"` while its status is
`rejected`, so `hired_tutor` non-null does not imply status `hired` — the
biconditional invariant fails after this sequence of operations. -/
theorem hired_tutor_iff_hired_cex :
    (findA (run {} seqX4).tuitions "L1").map Listing.hiredTutor =
      some (some "T1") ∧
    (findA (run {} seqX4).tuitions "L1").map Listing.status =
      some "rejected" := by
  decide

/-- C4 (amended): after any sequence of operations from the empty store,
every listing whose status is `hired` has a non-null `hired_tutor`.  The
converse direction of the claimed biconditional does not hold (admin
moderation is unguarded, so rejecting a hired listing strips the status but
keeps the binding), and the binding itself can later be overwritten by a
reconciliation with a fresh transaction reference. -/
theorem hired_status_implies_hired_tutor (ops : List (Op × Nat)) :
    ∀ kv ∈ (run {} ops).tuitions, kv.2.status = "hired" →
      kv.2.hiredTutor ≠ none :=
  listingsOk_run (fun kv hm => absurd hm (List.not_mem_nil kv)) ops

/-- Create, approve, apply, reconcile a hire — and stop there. -/
def seqW4 : List (Op × Nat) :=
  [(.createT "L1" "s1" 0, 0), (.approveT "L1", 1),
   (.applyA "A1" "T1" "L1" 100, 2), (.reconcile sessX4, 3)]

/-- The listing produced by `seqW4`. -/
def lisW4 : Listing :=
  { owner := "s1", attrs := 0, status := "hired", hiredTutor := some "T1",
    createdAt := 0, approvedAt := some 1, hiredAt := some 3 }

/-- Witness for the amended C4: the hired listing reached by `seqW4`
indeed carries a hired tutor. -/
theorem hired_status_implies_hired_tutor_witness :
    ("L1", lisW4) ∈ (run {} seqW4).tuitions ∧ lisW4.status = "hired" ∧
    lisW4.hiredTutor ≠ none :=
  ⟨by decide, by decide,
    hired_status_implies_hired_tutor seqW4 ("L1", lisW4) (by decide)
      (by decide)⟩

end ETuition
